import Mathlib

/-!
Verification of the upload backend (`backend.py`): a shallow embedding of its
handlers (`upload_file`, `save_location`, `get_uploads`, `get_file`) and its
schema manager (`ensure_schema`, `reset_schema`, `init_db`), with theorems
settling the specified properties.

Filenames, paths and form values are modelled as `List Char`; file contents as
`List Nat` (byte values); the uploads directory as a function from paths to
optional contents; the metadata table as a list of rows.
-/

namespace Backend

/-- Convert a string literal to the `List Char` representation used throughout. -/
def strL (s : String) : List Char := s.data

/-- Python `str.lower()`: lowercase every character. -/
def lowerL (l : List Char) : List Char := l.map Char.toLower

/-- Python whitespace characters relevant to `str.split()` (ASCII range). -/
def isPySpace (c : Char) : Bool :=
  c = ' ' || c = '\t' || c = '\n' || c = '\r' || c = Char.ofNat 11 || c = Char.ofNat 12

/-- Python `"_".join(s.split())`: split on whitespace runs, drop the empty
pieces, join the words with single underscores. -/
def wsJoin (l : List Char) : List Char :=
  List.intercalate [ '_' ] ((l.splitOnP isPySpace).filter (fun w => w ≠ []))

/-- Characters kept by werkzeug's filename regex `[A-Za-z0-9_.-]`. -/
def isFnameChar (c : Char) : Bool :=
  (('A' ≤ c && c ≤ 'Z') || ('a' ≤ c && c ≤ 'z') || ('0' ≤ c && c ≤ '9')
    || c = '_' || c = '.' || c = '-')

/-- Model of `werkzeug.utils.secure_filename` (POSIX): drop non-ASCII characters,
turn path separators into spaces, join the whitespace-separated words with
underscores, strip characters outside `[A-Za-z0-9_.-]`, and strip `.`/`_`
from both ends. -/
def secure_filename (raw : List Char) : List Char :=
  let ascii := raw.filter (fun c => c.toNat < 128)
  let noSep := ascii.map (fun c => if c = '/' then ' ' else c)
  let joined := wsJoin noSep
  let kept := joined.filter isFnameChar
  let stripped :=
    ((kept.dropWhile (fun c => c = '.' || c = '_')).reverse.dropWhile
      (fun c => c = '.' || c = '_')).reverse
  stripped

/-- The allowed extensions tuple from the handler, dots included. -/
def allowedExts : List (List Char) :=
  [strL ".jpg", strL ".jpeg", strL ".png", strL ".gif", strL ".bmp", strL ".webp",
   strL ".mp4", strL ".mov", strL ".avi", strL ".mkv", strL ".flv", strL ".wmv"]

/-- The check `filename.lower().endswith(allowed_exts)`. -/
def endswithAllowed (filename : List Char) : Bool :=
  allowedExts.any (fun e => e.isSuffixOf (lowerL filename))

/-- The suffix of `l` after its last dot, or `none` when `l` has no dot:
the extension in the sense of `os.path.splitext`, for names with no
leading dot. -/
def afterLastDot (l : List Char) : Option (List Char) :=
  if '.' ∈ l then some ((l.reverse.takeWhile (fun c => c ≠ '.')).reverse)
  else none

/-- A MIME table: lowercase extension (without dot) to MIME type, the state
`mimetypes.guess_type` consults (its contents depend on the Python version and
on system files such as `/etc/mime.types`). -/
abbrev MimeTable : Type := List (List Char × String)

/-- Model of `mimetypes.guess_type(path)`: look up the lowercased extension of the
path in the table. -/
def guess_type (tbl : MimeTable) (path : List Char) : Option String :=
  match afterLastDot (lowerL path) with
  | none => none
  | some e => (tbl.find? (fun p => p.1 = e)).map (fun p => p.2)

/-- The handler's MIME dispatch: `video` if the guessed type starts with
"video", else `image` if it starts with "image", else rejection (`none`). -/
def fileTypeOf (mime : Option String) : Option String :=
  match mime with
  | none => none
  | some m =>
    if (strL "video").isPrefixOf m.data then some "video"
    else if (strL "image").isPrefixOf m.data then some "image"
    else none

/-- A MIME table holding standard mappings for every allowed extension,
as on a system whose mime database covers them all. -/
def fullMimeTable : MimeTable :=
  [(strL "jpg", "image/jpeg"), (strL "jpeg", "image/jpeg"),
   (strL "png", "image/png"), (strL "gif", "image/gif"),
   (strL "bmp", "image/bmp"), (strL "webp", "image/webp"),
   (strL "mp4", "video/mp4"), (strL "mov", "video/quicktime"),
   (strL "avi", "video/x-msvideo"), (strL "mkv", "video/x-matroska"),
   (strL "flv", "video/x-flv"), (strL "wmv", "video/x-ms-wmv"),
   (strL "txt", "text/plain"), (strL "pdf", "application/pdf")]

/-- A MIME table as built by a bare CPython `mimetypes` module with no system
mime files: `.flv` and `.wmv` have no entry. -/
def vanillaMimeTable : MimeTable :=
  [(strL "jpg", "image/jpeg"), (strL "jpeg", "image/jpeg"),
   (strL "png", "image/png"), (strL "gif", "image/gif"),
   (strL "bmp", "image/bmp"), (strL "webp", "image/webp"),
   (strL "mp4", "video/mp4"), (strL "mov", "video/quicktime"),
   (strL "avi", "video/x-msvideo"), (strL "mkv", "video/x-matroska"),
   (strL "txt", "text/plain")]

/-- One metadata row of the `uploads` table as the handlers read and write it. -/
structure UploadRow where
  rid : Nat
  filename : List Char
  ftype : String
  fpath : List Char
  geotag : List Char
  timeSent : List Char
  createdAt : List Char
deriving Repr, DecidableEq

/-- The metadata table, in insertion order. -/
abbrev Db : Type := List UploadRow

/-- The uploads directory: which byte contents live at which path. -/
abbrev Fs : Type := List Char → Option (List Nat)

/-- The empty uploads directory. -/
def emptyFs : Fs := fun _ => none

/-- Value of `c.lastrowid` after an `INSERT` on the `AUTOINCREMENT` id column:
one more than the largest id in use. -/
def nextId (db : Db) : Nat :=
  (db.foldr (fun r m => max r.rid m) 0) + 1

/-- Query `SELECT ... WHERE id=?` with `fetchone()`: the first row with that id. -/
def findRow (db : Db) (fid : Nat) : Option UploadRow :=
  db.find? (fun r => r.rid = fid)

/-- The file part of a multipart request: its raw filename and its bytes. -/
structure FilePart where
  filename : List Char
  content : List Nat
deriving Repr, DecidableEq

/-- A request to `POST /upload`: optional file part and the optional `geotag`
and `time` form fields. -/
structure UploadReq where
  file : Option FilePart
  geotag : Option (List Char)
  time : Option (List Char)
deriving Repr, DecidableEq

/-- The JSON body of a response from `POST /upload`. -/
inductive UploadResp where
  | err (msg : String)
  | ok (id : Nat) (filename : List Char) (ftype : String)
       (geotag : List Char) (timeSent : List Char) (fileUrl : List Char)
deriving Repr, DecidableEq

/-- The `uploads/` directory prefix of a saved path (`os.path.join`). -/
def uploadsDir : List Char := strL "uploads/"

/-- Handler for `POST /upload` (`upload_file` in `backend.py`). `tbl` is the mimetypes
state, `ts` the `datetime.now().strftime("%Y%m%d%H%M%S")` string, `created`
the `created_at` value the database assigns, `host` the request host URL.
Returns (status, body), the table after, and the directory after. -/
def upload_file (tbl : MimeTable) (ts : List Char) (created : List Char)
    (host : List Char) (req : UploadReq) (db : Db) (fs : Fs) :
    (Nat × UploadResp) × Db × Fs :=
  match req.file with
  | none => ((400, .err "No file found in request"), db, fs)
  | some f =>
    if f.filename = [] then ((400, .err "No selected file"), db, fs)
    else
      let filename := secure_filename f.filename
      if ¬ endswithAllowed filename then
        ((400, .err "File type not allowed"), db, fs)
      else
        let fpath := uploadsDir ++ ts ++ '_' :: filename
        let fs1 : Fs := fun p => if p = fpath then some f.content else fs p
        match fileTypeOf (guess_type tbl fpath) with
        | none =>
          ((400, .err "Invalid file type"), db,
            fun p => if p = fpath then none else fs p)
        | some ftype =>
          let geotag := req.geotag.getD (strL "Not provided")
          let timeSent := req.time.getD (strL "Not provided")
          let nid := nextId db
          let row : UploadRow :=
            ⟨nid, filename, ftype, fpath, geotag, timeSent, created⟩
          ((200, .ok nid filename ftype geotag timeSent
              (host ++ strL "file/" ++ strL (toString nid))),
            db ++ [row], fs1)

/-- The JSON body of `POST /location`: the dictionary may be absent
(unparseable or falsy) and each coordinate may be missing. Values are kept as
their f-string renderings. -/
structure LocBody where
  latitude : Option (List Char)
  longitude : Option (List Char)
deriving Repr, DecidableEq

/-- The JSON body of a response from `POST /location`. -/
inductive LocResp where
  | err (msg : String)
  | ok (id : Nat) (latitude : List Char) (longitude : List Char)
deriving Repr, DecidableEq

/-- Handler for `POST /location` (`save_location` in `backend.py`). `nowIso` is
`datetime.now().isoformat()`, `created` the database's `created_at` value. -/
def save_location (nowIso : List Char) (created : List Char)
    (body : Option LocBody) (db : Db) : (Nat × LocResp) × Db :=
  match body with
  | none => ((400, .err "Latitude and longitude required"), db)
  | some d =>
    match d.latitude, d.longitude with
    | some la, some lo =>
      let nid := nextId db
      let row : UploadRow :=
        ⟨nid, strL "location", "location", strL "N/A",
          la ++ ',' :: lo, nowIso, created⟩
      ((200, .ok nid la lo), db ++ [row])
    | _, _ => ((400, .err "Latitude and longitude required"), db)

/-- One entry of the `GET /uploads` listing. -/
structure UploadEntry where
  id : Nat
  filename : List Char
  ftype : String
  geotag : List Char
  timeSent : List Char
  createdAt : List Char
  fileUrl : List Char
deriving Repr, DecidableEq

/-- Handler for `GET /uploads` (`get_uploads` in `backend.py`). -/
def get_uploads (host : List Char) (db : Db) : Nat × List UploadEntry :=
  (200, db.map (fun r =>
    ⟨r.rid, r.filename, r.ftype, r.geotag, r.timeSent, r.createdAt,
      host ++ strL "file/" ++ strL (toString r.rid)⟩))

/-- The body of a response from `GET /file/{id}`. -/
inductive GetResp where
  | err (msg : String)
  | file (bytes : List Nat)
deriving Repr, DecidableEq

/-- Handler for `GET /file/{id}` (`get_file` in `backend.py`). The whole handler body runs
in a `try` block; `dbr` is the database access, which either yields the table
or raises, and a raised exception reaches the `except` clause, which returns
its message with status 500. -/
def get_file (dbr : Except String Db) (fs : Fs) (fid : Nat) : Nat × GetResp :=
  match dbr with
  | .error e => (500, .err e)
  | .ok db =>
    match findRow db fid with
    | none => (404, .err ("file not found with id " ++ toString fid))
    | some row =>
      match fs row.fpath with
      | none => (404, .err "File not found on server")
      | some bytes => (200, .file bytes)

/-! ### Schema manager (`ensure_schema`, `reset_schema`, `init_db`)

The DDL layer is modelled column-generically: a table is its column-name list
and its rows, each row a list of cell values (`none` = SQL NULL) aligned with
the columns. -/

/-- A SQL table: column names in order, and rows of values aligned with them. -/
structure Table where
  cols : List String
  rows : List (List (Option String))
deriving Repr, DecidableEq

/-- The dictionary `EXPECTED_COLUMNS`, in insertion order: column name and its
SQL coldef. -/
def expectedColumns : List (String × String) :=
  [("id", "INTEGER PRIMARY KEY AUTOINCREMENT"),
   ("filename", "TEXT NOT NULL"),
   ("file_type", "TEXT NOT NULL"),
   ("file_path", "TEXT NOT NULL"),
   ("geotag", "TEXT"),
   ("time_sent", "TEXT"),
   ("created_at", "TIMESTAMP DEFAULT CURRENT_TIMESTAMP")]

/-- The table `CREATE_TABLE_SQL` builds: all expected columns, no rows. -/
def freshTable : Table := ⟨expectedColumns.map Prod.fst, []⟩

/-- The result of one schema-manager run: the table as it stands afterwards,
and the message of the `sqlite3.OperationalError` it raised, if any. The
program does not catch this error, so a `some` here aborts `init_db` (the DDL
executed before the failing statement persists). -/
structure SchemaOutcome where
  table : Table
  error : Option String
deriving Repr, DecidableEq

/-- Whether `needle` occurs as a contiguous substring of `hay`. -/
def hasSub : List Char → List Char → Bool
  | needle, [] => needle.isEmpty
  | needle, c :: cs => needle.isPrefixOf (c :: cs) || hasSub needle cs

/-- Whether SQLite accepts `ALTER TABLE ... ADD COLUMN c {coldef}`: it rejects
a NOT NULL constraint (the new column's existing rows would hold NULL) and a
non-constant default such as CURRENT_TIMESTAMP. -/
def addColumnOk (coldef : String) : Bool :=
  ¬ (hasSub (strL "NOT NULL") (strL coldef)
    || hasSub (strL "CURRENT_TIMESTAMP") (strL coldef))

/-- The columns the `ensure_schema` loop tries to add: expected ones that are
neither `id` nor in the `existing` set snapshotted before the loop. -/
def missingColumns (existing : List String) : List (String × String) :=
  expectedColumns.filter (fun p => ¬ (p.1 ∈ existing ∨ p.1 = "id"))

/-- The `ALTER TABLE ADD COLUMN` loop of `ensure_schema`: each accepted column
is appended with NULL in every existing row; the first column SQLite rejects
raises an `OperationalError`, stopping the loop with the table as altered so
far. -/
def runAlters : List (String × String) → Table → SchemaOutcome
  | [], t => ⟨t, none⟩
  | p :: rest, t =>
    if addColumnOk p.2 then
      runAlters rest ⟨t.cols ++ [p.1], t.rows.map (fun r => r ++ [none])⟩
    else if hasSub (strL "NOT NULL") (strL p.2) then
      ⟨t, some "Cannot add a NOT NULL column with default value NULL"⟩
    else
      ⟨t, some "Cannot add a column with non-constant default"⟩

/-- Model of `ensure_schema`: create the table if absent, then run the
`ALTER TABLE ADD COLUMN` loop over the missing expected columns. -/
def ensure_schema (s : Option Table) : SchemaOutcome :=
  runAlters (missingColumns (s.getD freshTable).cols) (s.getD freshTable)

/-- Model of `reset_schema`: `DROP TABLE IF EXISTS` then recreate — always the
fresh empty table, never raising. -/
def reset_schema (_ : Option Table) : Table := freshTable

/-- Model of `init_db`: destructive reset when the `RESET_DB` flag is set,
otherwise the non-destructive path. -/
def init_db (resetRequested : Bool) (s : Option Table) : SchemaOutcome :=
  if resetRequested then ⟨reset_schema s, none⟩ else ensure_schema s

/-- The value of column `n` in a row aligned with `cols`
(`none` = no such column, `some v` = the cell, itself optional for NULL). -/
def colVal : List String → List (Option String) → String → Option (Option String)
  | [], _, _ => none
  | _ :: _, [], _ => none
  | c :: cs, v :: vs, n => if c = n then some v else colVal cs vs n

/-! ### Statement-side helpers -/

/-- The id carried by a successful upload response. -/
def respId : UploadResp → Option Nat
  | .ok i _ _ _ _ _ => some i
  | .err _ => none

/-- The file_type carried by a successful upload response. -/
def respFtype : UploadResp → Option String
  | .ok _ _ t _ _ _ => some t
  | .err _ => none

/-- The geotag carried by a successful upload response. -/
def respGeotag : UploadResp → Option (List Char)
  | .ok _ _ _ g _ _ => some g
  | .err _ => none

/-- The time_sent carried by a successful upload response. -/
def respTime : UploadResp → Option (List Char)
  | .ok _ _ _ _ t _ => some t
  | .err _ => none

/-- The latitude/longitude pair the `save_location` handler accepts: present
exactly when the body parses and has both fields. -/
def locFields : Option LocBody → Option (List Char × List Char)
  | none => none
  | some d =>
    match d.latitude, d.longitude with
    | some la, some lo => some (la, lo)
    | _, _ => none

/-- The extension of a sanitized filename, lowercased: the extension of the
lowercased name (lowercasing moves no dots). -/
def extLower (l : List Char) : Option (List Char) :=
  afterLastDot (lowerL l)

/-- The allowed extensions without their dots. -/
def allowedBare : List (List Char) :=
  [strL "jpg", strL "jpeg", strL "png", strL "gif", strL "bmp", strL "webp",
   strL "mp4", strL "mov", strL "avi", strL "mkv", strL "flv", strL "wmv"]

/-- Whether the (sanitized) filename's extension is in the allowed set,
compared case-insensitively. -/
def extAllowed (l : List Char) : Bool :=
  match extLower l with
  | some e => allowedBare.contains e
  | none => false

/-- Modelled from the spec: "derived from content inspection" — a content
sniffer for the written bytes, recognising the magic numbers of the allowed
image and video containers. The code has no such function (it guesses from
the name alone); this definition stands for what the spec asks for. -/
def sniffMime (bytes : List Nat) : Option String :=
  if [137, 80, 78, 71, 13, 10, 26, 10].isPrefixOf bytes then some "image/png"
  else if [255, 216, 255].isPrefixOf bytes then some "image/jpeg"
  else if [71, 73, 70, 56].isPrefixOf bytes then some "image/gif"
  else if [66, 77].isPrefixOf bytes then some "image/bmp"
  else if [82, 73, 70, 70].isPrefixOf bytes then some "image/riff-container"
  else if bytes.drop 4 |>.take 4 |>.beq [102, 116, 121, 112] then some "video/mp4"
  else if [26, 69, 223, 163].isPrefixOf bytes then some "video/x-matroska"
  else if [70, 76, 86].isPrefixOf bytes then some "video/x-flv"
  else none

/-! ### Helper lemmas -/

theorem rid_le_fold (db : Db) (r : UploadRow) (h : r ∈ db) :
    r.rid ≤ db.foldr (fun x m => max x.rid m) 0 := by
  induction db with
  | nil => cases h
  | cons a l ih =>
    rcases List.mem_cons.mp h with rfl | h2
    · exact le_max_left _ _
    · exact le_trans (ih h2) (le_max_right _ _)

theorem rid_lt_nextId (db : Db) (r : UploadRow) (h : r ∈ db) :
    r.rid < nextId db :=
  Nat.lt_succ_of_le (rid_le_fold db r h)

theorem find_append_fresh (p : UploadRow → Bool) (db : Db) (row : UploadRow)
    (h : ∀ r ∈ db, ¬ p r = true) (hrow : p row = true) :
    (db ++ [row]).find? p = some row := by
  induction db with
  | nil => simp [List.find?, hrow]
  | cons a l ih =>
    rw [List.cons_append, List.find?_cons_of_neg _ (h a (List.mem_cons_self a l))]
    exact ih (fun r hr => h r (List.mem_cons_of_mem a hr))

theorem findRow_append_nextId (db : Db) (row : UploadRow)
    (h : row.rid = nextId db) :
    findRow (db ++ [row]) row.rid = some row := by
  unfold findRow
  refine find_append_fresh _ db row (fun r hr hc => ?_) (by simp)
  have hlt := rid_lt_nextId db r hr
  have heq : r.rid = row.rid := by simpa using hc
  omega

theorem takeWhile_append_cons (p : Char → Bool) (a : List Char) (b : Char)
    (c : List Char) (ha : ∀ x ∈ a, p x = true) (hb : p b = false) :
    (a ++ b :: c).takeWhile p = a := by
  induction a with
  | nil => simp [List.takeWhile_cons, hb]
  | cons x xs ih =>
    rw [List.cons_append, List.takeWhile_cons_of_pos (ha x (List.mem_cons_self x xs))]
    rw [ih (fun y hy => ha y (List.mem_cons_of_mem x hy))]

theorem afterLastDot_of_suffix (b l : List Char) (hb : '.' ∉ b)
    (h : ('.' :: b).isSuffixOf l = true) : afterLastDot l = some b := by
  rw [List.isSuffixOf_iff_suffix] at h
  obtain ⟨t, rfl⟩ := h
  unfold afterLastDot
  rw [if_pos (List.mem_append_right t (List.mem_cons_self _ _))]
  have hrev : (t ++ '.' :: b).reverse = b.reverse ++ '.' :: t.reverse := by
    simp
  rw [hrev, takeWhile_append_cons _ b.reverse '.' t.reverse
    (fun x hx => by
      simp only [ne_eq, decide_eq_true_eq]
      exact fun hx2 => hb (hx2 ▸ List.mem_reverse.mp hx))
    (by simp), List.reverse_reverse]

theorem allowedExts_eq_map : allowedExts = allowedBare.map (fun b => '.' :: b) := by
  decide

theorem ext_of_endswith (s : List Char) (h : endswithAllowed s = true) :
    extAllowed s = true := by
  unfold endswithAllowed at h
  rw [List.any_eq_true] at h
  obtain ⟨e, he, hsuf⟩ := h
  rw [allowedExts_eq_map, List.mem_map] at he
  obtain ⟨b, hbmem, rfl⟩ := he
  have hdot : '.' ∉ b := by
    have hall : ∀ x ∈ allowedBare, '.' ∉ x := by decide
    exact hall b hbmem
  have hext : afterLastDot (lowerL s) = some b :=
    afterLastDot_of_suffix b (lowerL s) hdot hsuf
  unfold extAllowed extLower
  rw [hext]
  exact List.elem_eq_true_of_mem hbmem

theorem fileTypeOf_image_or_video (m : Option String) (t : String)
    (h : fileTypeOf m = some t) : t = "image" ∨ t = "video" := by
  rcases m with _ | m
  · cases h
  · rw [show fileTypeOf (some m) =
        (if (strL "video").isPrefixOf m.data = true then some "video"
          else if (strL "image").isPrefixOf m.data = true then some "image"
          else none) from rfl] at h
    by_cases hv : (strL "video").isPrefixOf m.data = true
    · rw [if_pos hv] at h
      injection h with h2
      exact Or.inr h2.symm
    · rw [if_neg hv] at h
      by_cases hi : (strL "image").isPrefixOf m.data = true
      · rw [if_pos hi] at h
        injection h with h2
        exact Or.inl h2.symm
      · rw [if_neg hi] at h
        cases h

/-! Branch characterisations of `upload_file` (shared by several claims). -/

theorem upload_eq_nofile (tbl : MimeTable) (ts created host : List Char)
    (g t : Option (List Char)) (db : Db) (fs : Fs) :
    upload_file tbl ts created host ⟨none, g, t⟩ db fs =
      ((400, .err "No file found in request"), db, fs) := rfl

theorem upload_eq_emptyname (tbl : MimeTable) (ts created host : List Char)
    (fp : FilePart) (g t : Option (List Char)) (db : Db) (fs : Fs)
    (h1 : fp.filename = []) :
    upload_file tbl ts created host ⟨some fp, g, t⟩ db fs =
      ((400, .err "No selected file"), db, fs) := by
  simp only [upload_file]
  rw [if_pos h1]

theorem upload_eq_badext (tbl : MimeTable) (ts created host : List Char)
    (fp : FilePart) (g t : Option (List Char)) (db : Db) (fs : Fs)
    (h1 : ¬ fp.filename = [])
    (h2 : endswithAllowed (secure_filename fp.filename) = false) :
    upload_file tbl ts created host ⟨some fp, g, t⟩ db fs =
      ((400, .err "File type not allowed"), db, fs) := by
  simp only [upload_file]
  rw [if_neg h1, if_pos (by simp [h2])]

theorem upload_eq_badmime (tbl : MimeTable) (ts created host : List Char)
    (fp : FilePart) (g t : Option (List Char)) (db : Db) (fs : Fs)
    (h1 : ¬ fp.filename = [])
    (h2 : endswithAllowed (secure_filename fp.filename) = true)
    (hft : fileTypeOf (guess_type tbl
        (uploadsDir ++ ts ++ '_' :: secure_filename fp.filename)) = none) :
    upload_file tbl ts created host ⟨some fp, g, t⟩ db fs =
      ((400, .err "Invalid file type"), db,
        fun p => if p = uploadsDir ++ ts ++ '_' :: secure_filename fp.filename
          then none else fs p) := by
  simp only [upload_file]
  rw [if_neg h1, if_neg (not_not_intro h2), hft]

theorem upload_eq_success (tbl : MimeTable) (ts created host : List Char)
    (fp : FilePart) (g t : Option (List Char)) (db : Db) (fs : Fs) (ftype : String)
    (h1 : ¬ fp.filename = [])
    (h2 : endswithAllowed (secure_filename fp.filename) = true)
    (hft : fileTypeOf (guess_type tbl
        (uploadsDir ++ ts ++ '_' :: secure_filename fp.filename)) = some ftype) :
    upload_file tbl ts created host ⟨some fp, g, t⟩ db fs =
      ((200, .ok (nextId db) (secure_filename fp.filename) ftype
          (g.getD (strL "Not provided")) (t.getD (strL "Not provided"))
          (host ++ strL "file/" ++ strL (toString (nextId db)))),
        db ++ [⟨nextId db, secure_filename fp.filename, ftype,
          uploadsDir ++ ts ++ '_' :: secure_filename fp.filename,
          g.getD (strL "Not provided"), t.getD (strL "Not provided"), created⟩],
        fun p => if p = uploadsDir ++ ts ++ '_' :: secure_filename fp.filename
          then some fp.content else fs p) := by
  simp only [upload_file]
  rw [if_neg h1, if_neg (not_not_intro h2), hft]

/-! Branch characterisations of `get_file` and `save_location`. -/

theorem get_file_raise (e : String) (fs : Fs) (fid : Nat) :
    get_file (.error e) fs fid = (500, .err e) := rfl

theorem get_file_no_row (db : Db) (fs : Fs) (fid : Nat)
    (h : findRow db fid = none) :
    get_file (.ok db) fs fid
      = (404, .err ("file not found with id " ++ toString fid)) := by
  simp only [get_file, h]

theorem get_file_no_payload (db : Db) (fs : Fs) (fid : Nat) (row : UploadRow)
    (h : findRow db fid = some row) (hp : fs row.fpath = none) :
    get_file (.ok db) fs fid = (404, .err "File not found on server") := by
  simp only [get_file, h, hp]

theorem get_file_found (db : Db) (fs : Fs) (fid : Nat) (row : UploadRow)
    (bytes : List Nat) (h : findRow db fid = some row)
    (hp : fs row.fpath = some bytes) :
    get_file (.ok db) fs fid = (200, .file bytes) := by
  simp only [get_file, h, hp]

theorem locFields_some_eq (body : Option LocBody) (la lo : List Char)
    (h : locFields body = some (la, lo)) : body = some ⟨some la, some lo⟩ := by
  rcases body with _ | ⟨dla, dlo⟩
  · cases h
  · rcases dla with _ | la2
    · simp [locFields] at h
    · rcases dlo with _ | lo2
      · simp [locFields] at h
      · simp only [locFields, Option.some.injEq, Prod.mk.injEq] at h
        obtain ⟨rfl, rfl⟩ := h
        rfl

theorem save_location_ok (nowIso created la lo : List Char) (db : Db) :
    save_location nowIso created (some ⟨some la, some lo⟩) db =
      ((200, .ok (nextId db) la lo),
        db ++ [⟨nextId db, strL "location", "location", strL "N/A",
          la ++ ',' :: lo, nowIso, created⟩]) := rfl

theorem save_location_err (nowIso created : List Char) (body : Option LocBody)
    (db : Db) (h : locFields body = none) :
    save_location nowIso created body db =
      ((400, .err "Latitude and longitude required"), db) := by
  rcases body with _ | ⟨dla, dlo⟩
  · rfl
  · rcases dla with _ | la <;> rcases dlo with _ | lo
    · rfl
    · rfl
    · rfl
    · cases h

theorem colVal_append (cols : List String) (row : List (Option String))
    (extra : List String) (pad : List (Option String)) (c : String)
    (hc : c ∈ cols) (hlen : row.length = cols.length) :
    colVal (cols ++ extra) (row ++ pad) c = colVal cols row c := by
  induction cols generalizing row with
  | nil => cases hc
  | cons c0 cs ih =>
    rcases row with _ | ⟨v, vs⟩
    · simp at hlen
    · simp only [List.cons_append, colVal]
      by_cases h : c0 = c
      · rw [if_pos h, if_pos h]
      · rw [if_neg h, if_neg h]
        have hc2 : c ∈ cs := by
          rcases List.mem_cons.mp hc with h2 | h2
          · exact absurd h2.symm h
          · exact h2
        exact ih vs hc2 (by simpa using hlen)

theorem zip_map_self {α β : Type} (f : α → β) (l : List α) :
    (l.map f).zip l = l.map (fun a => (f a, a)) := by
  induction l with
  | nil => rfl
  | cons a l ih => simp [List.zip_cons_cons, ih]

theorem runAlters_shape (cs : List (String × String)) (t : Table) :
    ∃ m, (runAlters cs t).table.cols = t.cols ++ m ∧
      (runAlters cs t).table.rows
        = t.rows.map (fun r => r ++ List.replicate m.length (none : Option String)) ∧
      ∀ c ∈ m, c ∈ cs.map Prod.fst := by
  induction cs generalizing t with
  | nil =>
    exact ⟨[], by simp [runAlters], by simp [runAlters], by simp⟩
  | cons p rest ih =>
    by_cases h : addColumnOk p.2 = true
    · have hstep : runAlters (p :: rest) t
          = runAlters rest ⟨t.cols ++ [p.1], t.rows.map (fun r => r ++ [none])⟩ := by
        simp [runAlters, h]
      obtain ⟨m, hm1, hm2, hm3⟩ :=
        ih ⟨t.cols ++ [p.1], t.rows.map (fun r => r ++ [none])⟩
      refine ⟨p.1 :: m, ?_, ?_, ?_⟩
      · rw [hstep, hm1]
        simp
      · rw [hstep, hm2, List.map_map]
        have hfun : ((fun r => r ++ List.replicate m.length (none : Option String))
              ∘ (fun r => r ++ [none]))
            = fun r : List (Option String) =>
                r ++ List.replicate (p.1 :: m).length none := by
          funext r
          simp [List.replicate_succ]
        rw [hfun]
      · intro c hc
        rcases List.mem_cons.mp hc with rfl | hc2
        · simp
        · simp only [List.map_cons]
          exact List.mem_cons_of_mem _ (hm3 c hc2)
    · refine ⟨[], ?_, ?_, by simp⟩
      · simp only [runAlters]
        rw [if_neg h]
        split
        · simp
        · simp
      · simp only [runAlters]
        rw [if_neg h]
        split
        · simp
        · simp

/-! ### Claims -/

/-- C1: for every valid upload accepted by `POST /upload`, passing the id
returned in the response to `GET /file/{id}` against the resulting state
returns bytes identical to the uploaded payload. -/
theorem upload_roundtrip (tbl : MimeTable) (ts created host : List Char)
    (req : UploadReq) (db : Db) (fs : Fs) (fp : FilePart) (nid : Nat)
    (hf : req.file = some fp)
    (hid : respId (upload_file tbl ts created host req db fs).1.2 = some nid) :
    get_file (.ok (upload_file tbl ts created host req db fs).2.1)
      (upload_file tbl ts created host req db fs).2.2 nid
      = (200, .file fp.content) := by
  obtain ⟨file, g, t⟩ := req
  subst hf
  by_cases h1 : fp.filename = []
  · rw [upload_eq_emptyname tbl ts created host fp g t db fs h1] at hid
    simp [respId] at hid
  by_cases h2 : endswithAllowed (secure_filename fp.filename) = true
  · rcases hft : fileTypeOf (guess_type tbl
        (uploadsDir ++ ts ++ '_' :: secure_filename fp.filename)) with _ | ftype
    · rw [upload_eq_badmime tbl ts created host fp g t db fs h1 h2 hft] at hid
      simp [respId] at hid
    · rw [upload_eq_success tbl ts created host fp g t db fs ftype h1 h2 hft] at hid ⊢
      simp only [respId, Option.some.injEq] at hid
      subst hid
      exact get_file_found _ _ _ _ _ (findRow_append_nextId db _ rfl) (by simp)
  · rw [upload_eq_badext tbl ts created host fp g t db fs h1
      (by simpa using h2)] at hid
    simp [respId] at hid

/-- C1 witness: a concrete accepted upload of `a.jpg` with payload `[1, 2, 3]`
round-trips through `GET /file/1`. -/
theorem upload_roundtrip_witness :
    (⟨some ⟨strL "a.jpg", [1, 2, 3]⟩, none, none⟩ : UploadReq).file
        = some ⟨strL "a.jpg", [1, 2, 3]⟩ ∧
    respId (upload_file fullMimeTable (strL "20250101000000") (strL "t0")
        (strL "http://h/") ⟨some ⟨strL "a.jpg", [1, 2, 3]⟩, none, none⟩ []
        emptyFs).1.2 = some 1 ∧
    get_file (.ok (upload_file fullMimeTable (strL "20250101000000") (strL "t0")
        (strL "http://h/") ⟨some ⟨strL "a.jpg", [1, 2, 3]⟩, none, none⟩ []
        emptyFs).2.1)
      (upload_file fullMimeTable (strL "20250101000000") (strL "t0")
        (strL "http://h/") ⟨some ⟨strL "a.jpg", [1, 2, 3]⟩, none, none⟩ []
        emptyFs).2.2 1
      = (200, .file [1, 2, 3]) :=
  ⟨rfl, by decide,
    upload_roundtrip fullMimeTable (strL "20250101000000") (strL "t0")
      (strL "http://h/") ⟨some ⟨strL "a.jpg", [1, 2, 3]⟩, none, none⟩ []
      emptyFs ⟨strL "a.jpg", [1, 2, 3]⟩ 1 rfl (by decide)⟩

/-- C2: every `POST /upload` request whose sanitized filename's extension lies
outside the allowed set (case-insensitively) gets a 400 response, and neither
the metadata table nor the uploads directory changes. -/
theorem upload_reject_bad_extension (tbl : MimeTable) (ts created host : List Char)
    (req : UploadReq) (db : Db) (fs : Fs) (fp : FilePart)
    (hf : req.file = some fp)
    (hext : extAllowed (secure_filename fp.filename) = false) :
    (upload_file tbl ts created host req db fs).1.1 = 400 ∧
    (upload_file tbl ts created host req db fs).2.1 = db ∧
    (upload_file tbl ts created host req db fs).2.2 = fs := by
  obtain ⟨file, g, t⟩ := req
  subst hf
  by_cases h1 : fp.filename = []
  · rw [upload_eq_emptyname tbl ts created host fp g t db fs h1]
    exact ⟨rfl, rfl, rfl⟩
  · have h2 : endswithAllowed (secure_filename fp.filename) = false := by
      cases hE : endswithAllowed (secure_filename fp.filename)
      · rfl
      · rw [ext_of_endswith _ hE] at hext
        cases hext
    rw [upload_eq_badext tbl ts created host fp g t db fs h1 h2]
    exact ⟨rfl, rfl, rfl⟩

/-- C2 witness: uploading `notes.txt` is rejected with 400 and leaves the
table and the directory unchanged. -/
theorem upload_reject_bad_extension_witness :
    (⟨some ⟨strL "notes.txt", [7]⟩, none, none⟩ : UploadReq).file
        = some ⟨strL "notes.txt", [7]⟩ ∧
    extAllowed (secure_filename (strL "notes.txt")) = false ∧
    ((upload_file fullMimeTable (strL "20250101000000") (strL "t0")
        (strL "http://h/") ⟨some ⟨strL "notes.txt", [7]⟩, none, none⟩ []
        emptyFs).1.1 = 400 ∧
      (upload_file fullMimeTable (strL "20250101000000") (strL "t0")
        (strL "http://h/") ⟨some ⟨strL "notes.txt", [7]⟩, none, none⟩ []
        emptyFs).2.1 = [] ∧
      (upload_file fullMimeTable (strL "20250101000000") (strL "t0")
        (strL "http://h/") ⟨some ⟨strL "notes.txt", [7]⟩, none, none⟩ []
        emptyFs).2.2 = emptyFs) :=
  ⟨rfl, by decide,
    upload_reject_bad_extension fullMimeTable (strL "20250101000000") (strL "t0")
      (strL "http://h/") ⟨some ⟨strL "notes.txt", [7]⟩, none, none⟩ [] emptyFs
      ⟨strL "notes.txt", [7]⟩ rfl (by decide)⟩

/-- C3 counterexample: the bytes `[0, 0, 0]` are not an image or video by
content inspection, yet uploading them as `a.png` is accepted with file_type
"image" — the handler derives file_type from the written file's name alone,
not from its content. -/
theorem filetype_ignores_content :
    sniffMime [0, 0, 0] = none ∧
    respFtype (upload_file fullMimeTable (strL "20250101000000") (strL "t0")
      (strL "http://h/") ⟨some ⟨strL "a.png", [0, 0, 0]⟩, none, none⟩ []
      emptyFs).1.2 = some "image" ∧
    (upload_file fullMimeTable (strL "20250101000000") (strL "t0")
      (strL "http://h/") ⟨some ⟨strL "a.png", [0, 0, 0]⟩, none, none⟩ []
      emptyFs).1.1 = 200 :=
  ⟨rfl, by decide, by decide⟩

/-- C3 amended: for every accepted upload the stored and returned file_type is
one of image/video, and it is derived from the MIME type guessed from the
written file's name: replacing the payload bytes by any other content leaves
the file_type unchanged. -/
theorem filetype_enum_from_name (tbl : MimeTable) (ts created host : List Char)
    (req : UploadReq) (db : Db) (fs : Fs) (fp : FilePart)
    (hf : req.file = some fp)
    (h200 : (upload_file tbl ts created host req db fs).1.1 = 200) :
    (respFtype (upload_file tbl ts created host req db fs).1.2 = some "image" ∨
      respFtype (upload_file tbl ts created host req db fs).1.2 = some "video") ∧
    (∀ c2 : List Nat,
      respFtype (upload_file tbl ts created host
          ⟨some ⟨fp.filename, c2⟩, req.geotag, req.time⟩ db fs).1.2
        = respFtype (upload_file tbl ts created host req db fs).1.2) := by
  obtain ⟨file, g, t⟩ := req
  subst hf
  by_cases h1 : fp.filename = []
  · rw [upload_eq_emptyname tbl ts created host fp g t db fs h1] at h200
    simp at h200
  by_cases h2 : endswithAllowed (secure_filename fp.filename) = true
  · rcases hft : fileTypeOf (guess_type tbl
        (uploadsDir ++ ts ++ '_' :: secure_filename fp.filename)) with _ | ftype
    · rw [upload_eq_badmime tbl ts created host fp g t db fs h1 h2 hft] at h200
      simp at h200
    · rw [upload_eq_success tbl ts created host fp g t db fs ftype h1 h2 hft]
      constructor
      · rcases fileTypeOf_image_or_video _ _ hft with h | h
        · exact Or.inl (by simp [respFtype, h])
        · exact Or.inr (by simp [respFtype, h])
      · intro c2
        rw [upload_eq_success tbl ts created host ⟨fp.filename, c2⟩ g t db fs
          ftype h1 h2 hft]
  · rw [upload_eq_badext tbl ts created host fp g t db fs h1
      (by simpa using h2)] at h200
    simp at h200

set_option maxHeartbeats 2000000 in
/-- C3 witness: the accepted upload of `b.mp4` has file_type "video", and the
file_type is unchanged under any change of payload. -/
theorem filetype_enum_from_name_witness :
    (⟨some ⟨strL "b.mp4", [9]⟩, none, none⟩ : UploadReq).file
        = some ⟨strL "b.mp4", [9]⟩ ∧
    (upload_file fullMimeTable (strL "20250101000000") (strL "t0")
      (strL "http://h/") ⟨some ⟨strL "b.mp4", [9]⟩, none, none⟩ []
      emptyFs).1.1 = 200 ∧
    ((respFtype (upload_file fullMimeTable (strL "20250101000000") (strL "t0")
        (strL "http://h/") ⟨some ⟨strL "b.mp4", [9]⟩, none, none⟩ []
        emptyFs).1.2 = some "image" ∨
      respFtype (upload_file fullMimeTable (strL "20250101000000") (strL "t0")
        (strL "http://h/") ⟨some ⟨strL "b.mp4", [9]⟩, none, none⟩ []
        emptyFs).1.2 = some "video") ∧
      (∀ c2 : List Nat,
        respFtype (upload_file fullMimeTable (strL "20250101000000") (strL "t0")
            (strL "http://h/") ⟨some ⟨strL "b.mp4", c2⟩, none, none⟩ []
            emptyFs).1.2
          = respFtype (upload_file fullMimeTable (strL "20250101000000")
            (strL "t0") (strL "http://h/")
            ⟨some ⟨strL "b.mp4", [9]⟩, none, none⟩ [] emptyFs).1.2)) :=
  ⟨rfl, by decide,
    filetype_enum_from_name fullMimeTable (strL "20250101000000") (strL "t0")
      (strL "http://h/") ⟨some ⟨strL "b.mp4", [9]⟩, none, none⟩ [] emptyFs
      ⟨strL "b.mp4", [9]⟩ rfl (by decide)⟩

/-- C4: when the re-derived MIME type of the written file resolves to neither
image nor video, the handler returns 400, inserts no row, deletes the
just-written file, and (when the generated path was fresh) leaves the
directory exactly as before. -/
theorem upload_reject_bad_mime (tbl : MimeTable) (ts created host : List Char)
    (req : UploadReq) (db : Db) (fs : Fs) (fp : FilePart)
    (hf : req.file = some fp)
    (h1 : ¬ fp.filename = [])
    (h2 : endswithAllowed (secure_filename fp.filename) = true)
    (hft : fileTypeOf (guess_type tbl
        (uploadsDir ++ ts ++ '_' :: secure_filename fp.filename)) = none)
    (hfresh : fs (uploadsDir ++ ts ++ '_' :: secure_filename fp.filename) = none) :
    (upload_file tbl ts created host req db fs).1.1 = 400 ∧
    (upload_file tbl ts created host req db fs).2.1 = db ∧
    (upload_file tbl ts created host req db fs).2.2
      (uploadsDir ++ ts ++ '_' :: secure_filename fp.filename) = none ∧
    (upload_file tbl ts created host req db fs).2.2 = fs := by
  obtain ⟨file, g, t⟩ := req
  subst hf
  rw [upload_eq_badmime tbl ts created host fp g t db fs h1 h2 hft]
  refine ⟨rfl, rfl, by simp, ?_⟩
  funext p
  show (if p = uploadsDir ++ ts ++ '_' :: secure_filename fp.filename
    then none else fs p) = fs p
  by_cases hp : p = uploadsDir ++ ts ++ '_' :: secure_filename fp.filename
  · rw [if_pos hp, hp, hfresh]
  · rw [if_neg hp]

/-- C4 witness: on a bare-Python mime table, `c.flv` passes the extension
allow-list but its guessed MIME type is `None`; the upload is rejected with
400, no row is inserted and the directory is unchanged. -/
theorem upload_reject_bad_mime_witness :
    (⟨some ⟨strL "c.flv", [5]⟩, none, none⟩ : UploadReq).file
        = some ⟨strL "c.flv", [5]⟩ ∧
    ¬ (⟨strL "c.flv", [5]⟩ : FilePart).filename = [] ∧
    endswithAllowed (secure_filename (strL "c.flv")) = true ∧
    fileTypeOf (guess_type vanillaMimeTable
      (uploadsDir ++ strL "20250101000000" ++ '_'
        :: secure_filename (strL "c.flv"))) = none ∧
    emptyFs (uploadsDir ++ strL "20250101000000" ++ '_'
      :: secure_filename (strL "c.flv")) = none ∧
    ((upload_file vanillaMimeTable (strL "20250101000000") (strL "t0")
        (strL "http://h/") ⟨some ⟨strL "c.flv", [5]⟩, none, none⟩ []
        emptyFs).1.1 = 400 ∧
      (upload_file vanillaMimeTable (strL "20250101000000") (strL "t0")
        (strL "http://h/") ⟨some ⟨strL "c.flv", [5]⟩, none, none⟩ []
        emptyFs).2.1 = [] ∧
      (upload_file vanillaMimeTable (strL "20250101000000") (strL "t0")
        (strL "http://h/") ⟨some ⟨strL "c.flv", [5]⟩, none, none⟩ []
        emptyFs).2.2 (uploadsDir ++ strL "20250101000000" ++ '_'
          :: secure_filename (strL "c.flv")) = none ∧
      (upload_file vanillaMimeTable (strL "20250101000000") (strL "t0")
        (strL "http://h/") ⟨some ⟨strL "c.flv", [5]⟩, none, none⟩ []
        emptyFs).2.2 = emptyFs) :=
  ⟨rfl, by decide, by decide, by decide, rfl,
    upload_reject_bad_mime vanillaMimeTable (strL "20250101000000") (strL "t0")
      (strL "http://h/") ⟨some ⟨strL "c.flv", [5]⟩, none, none⟩ [] emptyFs
      ⟨strL "c.flv", [5]⟩ rfl (by decide) (by decide) (by decide) rfl⟩

/-- C5: `POST /location` rejects with 400 and creates no row when the body is
missing latitude or longitude; with both present it creates exactly one row
with file_type "location", file_location "N/A", geotag
`"{latitude},{longitude}"` and time_sent the server's current timestamp, and
responds with the assigned id and the echoed coordinates. -/
theorem location_contract (nowIso created : List Char) (body : Option LocBody)
    (db : Db) :
    (locFields body = none →
      save_location nowIso created body db
        = ((400, .err "Latitude and longitude required"), db)) ∧
    (∀ la lo, locFields body = some (la, lo) →
      save_location nowIso created body db
        = ((200, .ok (nextId db) la lo),
            db ++ [⟨nextId db, strL "location", "location", strL "N/A",
              la ++ ',' :: lo, nowIso, created⟩])) := by
  constructor
  · exact save_location_err nowIso created body db
  · intro la lo h
    rw [locFields_some_eq body la lo h, save_location_ok]

/-- C5 witness: a body with both coordinates creates exactly the expected row
and response; a body missing longitude is rejected and creates no row. -/
theorem location_contract_witness :
    (locFields (some ⟨some (strL "40.1"), some (strL "-75.2")⟩)
        = some (strL "40.1", strL "-75.2") ∧
      save_location (strL "2025-01-01T00:00:00") (strL "t0")
          (some ⟨some (strL "40.1"), some (strL "-75.2")⟩) []
        = ((200, .ok 1 (strL "40.1") (strL "-75.2")),
            [⟨1, strL "location", "location", strL "N/A",
              strL "40.1" ++ ',' :: strL "-75.2",
              strL "2025-01-01T00:00:00", strL "t0"⟩])) ∧
    (locFields (some ⟨some (strL "40.1"), none⟩) = none ∧
      save_location (strL "2025-01-01T00:00:00") (strL "t0")
          (some ⟨some (strL "40.1"), none⟩) []
        = ((400, .err "Latitude and longitude required"), [])) :=
  ⟨⟨rfl, (location_contract (strL "2025-01-01T00:00:00") (strL "t0")
      (some ⟨some (strL "40.1"), some (strL "-75.2")⟩) []).2
      (strL "40.1") (strL "-75.2") rfl⟩,
    ⟨rfl, (location_contract (strL "2025-01-01T00:00:00") (strL "t0")
      (some ⟨some (strL "40.1"), none⟩) []).1 rfl⟩⟩

/-- C6: re-running schema initialization without the destructive-reset flag on
an existing populated table preserves every existing row and every existing
column — whether the run completes or aborts with an `OperationalError`, the
column list is only extended with expected missing columns (none dropped or
renamed) and every row keeps its place and its value at every pre-existing
column; running it with the destructive flag recreates the table, discarding
all existing rows. -/
theorem schema_init_contract (t : Table)
    (hlen : ∀ r ∈ t.rows, r.length = t.cols.length) :
    (∃ m, (init_db false (some t)).table.cols = t.cols ++ m ∧
      ∀ c ∈ m, c ∈ expectedColumns.map Prod.fst ∧ c ∉ t.cols) ∧
    (init_db false (some t)).table.rows.length = t.rows.length ∧
    (∀ pr ∈ (init_db false (some t)).table.rows.zip t.rows, ∀ c ∈ t.cols,
      colVal (init_db false (some t)).table.cols pr.1 c
        = colVal t.cols pr.2 c) ∧
    (init_db true (some t)).table.rows = [] ∧
    (init_db true (some t)).error = none := by
  obtain ⟨m, hcols, hrows, hm⟩ := runAlters_shape (missingColumns t.cols) t
  have hinit : init_db false (some t) = runAlters (missingColumns t.cols) t := rfl
  rw [hinit, hcols, hrows]
  refine ⟨⟨m, rfl, ?_⟩, by simp, ?_, rfl, rfl⟩
  · intro c hc
    have hcs := hm c hc
    rw [List.mem_map] at hcs
    obtain ⟨p, hp, rfl⟩ := hcs
    have hp2 : p ∈ expectedColumns ∧ ¬ (p.1 ∈ t.cols ∨ p.1 = "id") := by
      simpa [missingColumns, List.mem_filter] using hp
    exact ⟨List.mem_map_of_mem Prod.fst hp2.1, fun hmem => hp2.2 (Or.inl hmem)⟩
  · intro pr hpr c hc
    rw [zip_map_self, List.mem_map] at hpr
    obtain ⟨r, hr, rfl⟩ := hpr
    exact colVal_append t.cols r m _ c hc (hlen r hr)

/-- C6 witness: a one-row table missing `geotag`, `time_sent` and `created_at`
gets the two nullable columns appended and then aborts on the CURRENT_TIMESTAMP
default, keeping its row and its values at every pre-existing column; the
destructive path discards all rows. -/
theorem schema_init_contract_witness :
    (∀ r ∈ (⟨["id", "filename", "file_type", "file_path"],
        [[some "1", some "a.jpg", some "image", some "uploads/a.jpg"]]⟩
          : Table).rows,
      r.length = (⟨["id", "filename", "file_type", "file_path"],
        [[some "1", some "a.jpg", some "image", some "uploads/a.jpg"]]⟩
          : Table).cols.length) ∧
    (init_db false (some ⟨["id", "filename", "file_type", "file_path"],
        [[some "1", some "a.jpg", some "image", some "uploads/a.jpg"]]⟩)).error
      = some "Cannot add a column with non-constant default" ∧
    ((∃ m, (init_db false (some ⟨["id", "filename", "file_type", "file_path"],
        [[some "1", some "a.jpg", some "image", some "uploads/a.jpg"]]⟩)).table.cols
        = ["id", "filename", "file_type", "file_path"] ++ m ∧
      ∀ c ∈ m, c ∈ expectedColumns.map Prod.fst
        ∧ c ∉ ["id", "filename", "file_type", "file_path"]) ∧
      (init_db false (some ⟨["id", "filename", "file_type", "file_path"],
        [[some "1", some "a.jpg", some "image", some "uploads/a.jpg"]]⟩)).table.rows.length
        = 1 ∧
      (init_db true (some ⟨["id", "filename", "file_type", "file_path"],
        [[some "1", some "a.jpg", some "image", some "uploads/a.jpg"]]⟩)).table.rows
        = [] ∧
      (init_db true (some ⟨["id", "filename", "file_type", "file_path"],
        [[some "1", some "a.jpg", some "image", some "uploads/a.jpg"]]⟩)).error
        = none) :=
  ⟨by decide, by decide,
    (schema_init_contract ⟨["id", "filename", "file_type", "file_path"],
        [[some "1", some "a.jpg", some "image", some "uploads/a.jpg"]]⟩
        (by decide)).1,
    (schema_init_contract ⟨["id", "filename", "file_type", "file_path"],
        [[some "1", some "a.jpg", some "image", some "uploads/a.jpg"]]⟩
        (by decide)).2.1,
    (schema_init_contract ⟨["id", "filename", "file_type", "file_path"],
        [[some "1", some "a.jpg", some "image", some "uploads/a.jpg"]]⟩
        (by decide)).2.2.2.1,
    (schema_init_contract ⟨["id", "filename", "file_type", "file_path"],
        [[some "1", some "a.jpg", some "image", some "uploads/a.jpg"]]⟩
        (by decide)).2.2.2.2⟩

/-- C7: `GET /file/{id}` answers 404 with an id-specific message when no row
has the id, a distinct 404 when the row exists but its stored path has no file
on disk, and reports any exception raised during retrieval as a 500 carrying
the error message. -/
theorem getfile_error_taxonomy (db : Db) (fs : Fs) (fid : Nat) (e : String) :
    (findRow db fid = none →
      get_file (.ok db) fs fid
        = (404, .err ("file not found with id " ++ toString fid))) ∧
    (∀ row, findRow db fid = some row → fs row.fpath = none →
      get_file (.ok db) fs fid = (404, .err "File not found on server")) ∧
    get_file (.error e) fs fid = (500, .err e) :=
  ⟨get_file_no_row db fs fid,
    fun row h hp => get_file_no_payload db fs fid row h hp,
    get_file_raise e fs fid⟩

/-- C7 witness: against a one-row table, id 2 gives the unknown-id 404, id 1
with no file on disk gives the missing-payload 404, and a raised exception
gives a 500 with its message. -/
theorem getfile_error_taxonomy_witness :
    (findRow [⟨1, strL "x.jpg", "image", strL "uploads/x.jpg",
        strL "g", strL "t", strL "c"⟩] 2 = none ∧
      get_file (.ok [⟨1, strL "x.jpg", "image", strL "uploads/x.jpg",
          strL "g", strL "t", strL "c"⟩]) emptyFs 2
        = (404, .err ("file not found with id " ++ toString 2))) ∧
    (findRow [⟨1, strL "x.jpg", "image", strL "uploads/x.jpg",
        strL "g", strL "t", strL "c"⟩] 1
        = some ⟨1, strL "x.jpg", "image", strL "uploads/x.jpg",
          strL "g", strL "t", strL "c"⟩ ∧
      emptyFs (strL "uploads/x.jpg") = none ∧
      get_file (.ok [⟨1, strL "x.jpg", "image", strL "uploads/x.jpg",
          strL "g", strL "t", strL "c"⟩]) emptyFs 1
        = (404, .err "File not found on server")) ∧
    get_file (.error "disk failure") emptyFs 9 = (500, .err "disk failure") :=
  ⟨⟨by decide,
      (getfile_error_taxonomy [⟨1, strL "x.jpg", "image", strL "uploads/x.jpg",
        strL "g", strL "t", strL "c"⟩] emptyFs 2 "disk failure").1 (by decide)⟩,
    ⟨by decide, rfl,
      (getfile_error_taxonomy [⟨1, strL "x.jpg", "image", strL "uploads/x.jpg",
        strL "g", strL "t", strL "c"⟩] emptyFs 1 "disk failure").2.1
        ⟨1, strL "x.jpg", "image", strL "uploads/x.jpg",
          strL "g", strL "t", strL "c"⟩ (by decide) rfl⟩,
    (getfile_error_taxonomy [] emptyFs 9 "disk failure").2.2⟩

/-- C8: an upload never leaves a partial record: it either fully succeeds —
status 200, exactly one row appended, that row's path holding the payload — or
it fails with a 400 client error and the table is unchanged. -/
theorem upload_atomic (tbl : MimeTable) (ts created host : List Char)
    (req : UploadReq) (db : Db) (fs : Fs) :
    (∃ fp row, req.file = some fp ∧
      (upload_file tbl ts created host req db fs).1.1 = 200 ∧
      (upload_file tbl ts created host req db fs).2.1 = db ++ [row] ∧
      (upload_file tbl ts created host req db fs).2.2 row.fpath
        = some fp.content) ∨
    ((upload_file tbl ts created host req db fs).1.1 = 400 ∧
      (upload_file tbl ts created host req db fs).2.1 = db) := by
  obtain ⟨file, g, t⟩ := req
  rcases file with _ | fp
  · exact Or.inr ⟨rfl, rfl⟩
  by_cases h1 : fp.filename = []
  · rw [upload_eq_emptyname tbl ts created host fp g t db fs h1]
    exact Or.inr ⟨rfl, rfl⟩
  by_cases h2 : endswithAllowed (secure_filename fp.filename) = true
  · rcases hft : fileTypeOf (guess_type tbl
        (uploadsDir ++ ts ++ '_' :: secure_filename fp.filename)) with _ | ftype
    · rw [upload_eq_badmime tbl ts created host fp g t db fs h1 h2 hft]
      exact Or.inr ⟨rfl, rfl⟩
    · rw [upload_eq_success tbl ts created host fp g t db fs ftype h1 h2 hft]
      refine Or.inl ⟨fp, _, rfl, rfl, rfl, ?_⟩
      simp
  · rw [upload_eq_badext tbl ts created host fp g t db fs h1
      (by simpa using h2)]
    exact Or.inr ⟨rfl, rfl⟩

/-- C9: the stored and echoed geotag and time_sent are the form fields when
present and the literal "Not provided" when absent. -/
theorem upload_metadata_defaults (tbl : MimeTable) (ts created host : List Char)
    (req : UploadReq) (db : Db) (fs : Fs) (fp : FilePart)
    (hf : req.file = some fp)
    (h200 : (upload_file tbl ts created host req db fs).1.1 = 200) :
    respGeotag (upload_file tbl ts created host req db fs).1.2
      = some (req.geotag.getD (strL "Not provided")) ∧
    respTime (upload_file tbl ts created host req db fs).1.2
      = some (req.time.getD (strL "Not provided")) ∧
    ∃ row, (upload_file tbl ts created host req db fs).2.1 = db ++ [row] ∧
      row.geotag = req.geotag.getD (strL "Not provided") ∧
      row.timeSent = req.time.getD (strL "Not provided") := by
  obtain ⟨file, g, t⟩ := req
  subst hf
  by_cases h1 : fp.filename = []
  · rw [upload_eq_emptyname tbl ts created host fp g t db fs h1] at h200
    simp at h200
  by_cases h2 : endswithAllowed (secure_filename fp.filename) = true
  · rcases hft : fileTypeOf (guess_type tbl
        (uploadsDir ++ ts ++ '_' :: secure_filename fp.filename)) with _ | ftype
    · rw [upload_eq_badmime tbl ts created host fp g t db fs h1 h2 hft] at h200
      simp at h200
    · rw [upload_eq_success tbl ts created host fp g t db fs ftype h1 h2 hft]
      exact ⟨rfl, rfl, _, rfl, rfl, rfl⟩
  · rw [upload_eq_badext tbl ts created host fp g t db fs h1
      (by simpa using h2)] at h200
    simp at h200

set_option maxHeartbeats 2000000 in
/-- C9 witness: uploading `photo.JPG` with geotag "40.1,-75.2" and no time
field stores and echoes that geotag and the default time_sent. -/
theorem upload_metadata_defaults_witness :
    (⟨some ⟨strL "photo.JPG", [0, 1, 2, 3, 4, 5, 6, 7, 8, 9]⟩,
        some (strL "40.1,-75.2"), none⟩ : UploadReq).file
      = some ⟨strL "photo.JPG", [0, 1, 2, 3, 4, 5, 6, 7, 8, 9]⟩ ∧
    (upload_file fullMimeTable (strL "20250101000000") (strL "t0")
      (strL "http://h/")
      ⟨some ⟨strL "photo.JPG", [0, 1, 2, 3, 4, 5, 6, 7, 8, 9]⟩,
        some (strL "40.1,-75.2"), none⟩ [] emptyFs).1.1 = 200 ∧
    (respGeotag (upload_file fullMimeTable (strL "20250101000000") (strL "t0")
        (strL "http://h/")
        ⟨some ⟨strL "photo.JPG", [0, 1, 2, 3, 4, 5, 6, 7, 8, 9]⟩,
          some (strL "40.1,-75.2"), none⟩ [] emptyFs).1.2
      = some ((some (strL "40.1,-75.2")).getD (strL "Not provided")) ∧
    respTime (upload_file fullMimeTable (strL "20250101000000") (strL "t0")
        (strL "http://h/")
        ⟨some ⟨strL "photo.JPG", [0, 1, 2, 3, 4, 5, 6, 7, 8, 9]⟩,
          some (strL "40.1,-75.2"), none⟩ [] emptyFs).1.2
      = some ((none : Option (List Char)).getD (strL "Not provided")) ∧
    ∃ row, (upload_file fullMimeTable (strL "20250101000000") (strL "t0")
        (strL "http://h/")
        ⟨some ⟨strL "photo.JPG", [0, 1, 2, 3, 4, 5, 6, 7, 8, 9]⟩,
          some (strL "40.1,-75.2"), none⟩ [] emptyFs).2.1 = [] ++ [row] ∧
      row.geotag = (some (strL "40.1,-75.2")).getD (strL "Not provided") ∧
      row.timeSent = (none : Option (List Char)).getD (strL "Not provided")) :=
  ⟨rfl, by decide,
    upload_metadata_defaults fullMimeTable (strL "20250101000000") (strL "t0")
      (strL "http://h/")
      ⟨some ⟨strL "photo.JPG", [0, 1, 2, 3, 4, 5, 6, 7, 8, 9]⟩,
        some (strL "40.1,-75.2"), none⟩ [] emptyFs
      ⟨strL "photo.JPG", [0, 1, 2, 3, 4, 5, 6, 7, 8, 9]⟩ rfl (by decide)⟩

/-- C10: every row created by `POST /location` has its filename field set to
the literal "location", and `GET /uploads` on the resulting table reports that
filename for the new record. -/
theorem location_filename_reported (nowIso created host : List Char)
    (body : Option LocBody) (db : Db) (la lo : List Char)
    (hb : locFields body = some (la, lo)) :
    ∃ row, (save_location nowIso created body db).2 = db ++ [row] ∧
      row.filename = strL "location" ∧
      (get_uploads host (save_location nowIso created body db).2).2
        = (get_uploads host db).2
          ++ [⟨nextId db, strL "location", "location",
            la ++ ',' :: lo, nowIso, created,
            host ++ strL "file/" ++ strL (toString (nextId db))⟩] := by
  rw [locFields_some_eq body la lo hb, save_location_ok]
  refine ⟨_, rfl, rfl, ?_⟩
  simp [get_uploads]

/-- C10 witness: a concrete location ping creates a row whose filename is
"location", reported as such by the listing. -/
theorem location_filename_reported_witness :
    locFields (some ⟨some (strL "1.5"), some (strL "2.5")⟩)
      = some (strL "1.5", strL "2.5") ∧
    ∃ row, (save_location (strL "2025-01-01T00:00:00") (strL "t0")
        (some ⟨some (strL "1.5"), some (strL "2.5")⟩) []).2 = [] ++ [row] ∧
      row.filename = strL "location" ∧
      (get_uploads (strL "http://h/")
        (save_location (strL "2025-01-01T00:00:00") (strL "t0")
          (some ⟨some (strL "1.5"), some (strL "2.5")⟩) []).2).2
        = (get_uploads (strL "http://h/") ([] : Db)).2
          ++ [⟨nextId [], strL "location", "location",
            strL "1.5" ++ ',' :: strL "2.5",
            strL "2025-01-01T00:00:00", strL "t0",
            strL "http://h/" ++ strL "file/" ++ strL (toString (nextId []))⟩] :=
  ⟨rfl,
    location_filename_reported (strL "2025-01-01T00:00:00") (strL "t0")
      (strL "http://h/") (some ⟨some (strL "1.5"), some (strL "2.5")⟩) []
      (strL "1.5") (strL "2.5") rfl⟩
